import Mathlib

set_option maxHeartbeats 1000000

/-!
Verification development for the bi-vantage REPL library.

The PromptSession / prompt-coordinator state machine is embedded from
`lib/ui.js`.  The execution queue and the command registry live in
`lib/vantage.js` and `lib/command.js`; those files are modelled from the
specification, and each such definition says so in its doc comment.

Terminal side effects (console output, cleaning and redrawing the live
line, calls into the attached shell and into inquirer) are recorded as an
ordered event trace.
-/

namespace BiVantage

/-- A JavaScript primitive value, as far as the logging pipeline needs to
distinguish values: strings, booleans, numbers, undefined and null. -/
inductive JSPrim where
  | str (s : String)
  | bool (b : Bool)
  | num (n : Int)
  | undef
  | null
deriving DecidableEq, Repr

/-- A JavaScript value flowing through `ui.log`: a primitive, or an array of
primitives (an argument list). -/
inductive JSVal where
  | prim (p : JSPrim)
  | arr (xs : List JSPrim)
deriving DecidableEq, Repr

/-- JavaScript falsiness of a value: the empty string, `false`, `0`,
`undefined` and `null` are falsy; arrays are always truthy. -/
def JSVal.falsy : JSVal → Bool
  | .prim (.str s) => s == ""
  | .prim (.bool b) => !b
  | .prim (.num n) => n == 0
  | .prim .undef => true
  | .prim .null => true
  | .arr _ => false

/-- One observable side effect of a ui operation, in the order the effects
happen.  `consoleLog` is a `console.log.apply` of a user argument list;
`consoleMsg` is one of ui.js's own diagnostic `console.log` strings; `clean`,
`render` and `write` are calls on the active inquirer prompt;
`promptDone` is `activePrompt.done()`; `parentPromptCall` is the request
`this.parent._prompt()` to the attached shell; `inquirerPromptCall` is
`inquirer.prompt(options, ...)`, the only place the completion callback of
`ui.prompt` is ever handed out. -/
inductive Event where
  | consoleLog (args : List JSPrim)
  | consoleMsg (msg : String)
  | clean
  | promptDone
  | render
  | write (s : String)
  | parentPromptCall
  | inquirerPromptCall
deriving DecidableEq, Repr

/-- The readline handle of an inquirer prompt: the typed line and the cursor
position (`rl.line`, `rl.cursor`). -/
structure RL where
  line : String
  cursor : Nat
deriving DecidableEq, Repr

/-- An inquirer prompt object as ui.js manipulates it: its readline handle and
its `status` string ("answered" once answered). -/
structure Prompt where
  rl : RL
  status : String
deriving DecidableEq, Repr

/-- The PromptSession state set up by `ui._init` (ui.js:24-64): the attached
vantage instance (`parent`, identified here by a number), the active inquirer
prompt reference, the mid-prompt fail-safe flag, the cancel-mode flag, the
installed pipe transform and the last delimiter set by `setDelimiter`. -/
structure UIState where
  parent : Option Nat
  activePrompt : Option Prompt
  _midPrompt : Bool
  _cancelled : Bool
  _pipeFn : Option (List JSPrim → JSVal)
  _lastDelimiter : Option String

/-- Result of a ui operation: the state afterwards, the returned value and the
trace of side effects, in order. -/
structure UIRet (α : Type) where
  state : UIState
  ret : α
  events : List Event

/-- `ui.midPrompt()` (ui.js:107-111):
`(this._midPrompt && this.parent) ? true : false`. -/
def midPrompt (s : UIState) : Bool :=
  if s._midPrompt && s.parent.isSome then true else false

/-- JavaScript `String.prototype.trim()`: strips leading and trailing
whitespace. -/
def jsTrim (s : String) : String :=
  ⟨((s.data.dropWhile Char.isWhitespace).reverse.dropWhile Char.isWhitespace).reverse⟩

/-- `ui.setDelimiter(str)` (ui.js:123-133): no-op when detached, otherwise
stores `String(str).trim() + " "`.  The repointing of the inquirer prompt
prototypes' delimiter functions is an effect on the external engine and is
not part of this state. -/
def setDelimiter (s : UIState) (str : String) : UIState :=
  if s.parent.isSome then
    { s with _lastDelimiter := some (jsTrim str ++ " ") }
  else s

/-- The options object passed to `ui.prompt`: the two fields ui.js reads. -/
structure PromptOptions where
  delimiter : Option String
  message : Option String
deriving DecidableEq, Repr

/-- JavaScript truthiness of an optional string property such as
`options.delimiter`: absent and empty are falsy. -/
def optTruthy : Option String → Bool
  | none => false
  | some s => s != ""

/-- Outcome of a `ui.prompt` call: the silent early return when detached, the
thrown reentrancy error, or a real `inquirer.prompt` invocation. -/
inductive PromptOutcome where
  | returned
  | threw
  | prompted
deriving DecidableEq, Repr

/-- The delimiter stage of `ui.prompt` (ui.js:78-83): `setDelimiter` is
called with `options.delimiter` and then with `options.message`, each only
when truthy. -/
def promptDelims (s : UIState) (options : PromptOptions) : UIState :=
  if optTruthy options.message then
    setDelimiter
      (if optTruthy options.delimiter then setDelimiter s (options.delimiter.getD "") else s)
      (options.message.getD "")
  else
    (if optTruthy options.delimiter then setDelimiter s (options.delimiter.getD "") else s)

/-- `ui.prompt(options, cb)` (ui.js:74-97).  Detached: silent return.
Otherwise the delimiter is updated from `options.delimiter` and then
`options.message` when truthy, and only then is the mid-prompt fail-safe
checked: if set, the reentrancy error is thrown; if not, the flag is set and
`inquirer.prompt` is invoked with the completion callback, so `cb` can only
ever fire after an `inquirerPromptCall` event. -/
def prompt (s : UIState) (options : PromptOptions) : UIRet PromptOutcome :=
  if s.parent.isSome then
    if (promptDelims s options)._midPrompt then
      { state := promptDelims s options, ret := .threw,
        events := [Event.consoleMsg "Prompt called when mid prompt..."] }
    else
      { state := { promptDelims s options with _midPrompt := true }, ret := .prompted,
        events := [Event.inquirerPromptCall] }
  else
    { state := s, ret := .returned, events := [] }

/-- `ui.pause()` (ui.js:183-194).  Returns `false` (a discarded value) when
detached, when there is no active prompt or when not mid-prompt; otherwise it
captures `rl.line`, clears the mid-prompt flag, enters cancel mode, cleans the
line, marks the prompt answered, fires `done()` and returns the captured
string. -/
def pause (s : UIState) : UIRet JSVal :=
  if s.parent.isSome then
    match s.activePrompt with
    | none => { state := s, ret := .prim (.bool false), events := [] }
    | some p =>
      if s._midPrompt then
        { state := { s with
                      _midPrompt := false,
                      _cancelled := true,
                      activePrompt := some { p with status := "answered" } },
          ret := .prim (.str p.rl.line),
          events := [Event.clean, Event.promptDone] }
      else
        { state := s, ret := .prim (.bool false), events := [] }
  else
    { state := s, ret := .prim (.bool false), events := [] }

/-- `ui.resume(val)` (ui.js:206-218).  `val = val || ""` is the identity on
strings.  `this.parent._prompt()` lives in lib/vantage.js, which is not under
src/; per the spec it asks the attached shell to start a new prompt, and it is
recorded here as the `parentPromptCall` event.  The line content is then set
to `val` with the cursor at its end and the line is cleaned, re-rendered and
written. -/
def resume (s : UIState) (valIn : String) : UIRet Unit :=
  if s.parent.isSome then
    match s.activePrompt with
    | none => { state := s, ret := (), events := [] }
    | some p =>
      if s._midPrompt then { state := s, ret := (), events := [] }
      else
        { state := { s with
                      activePrompt :=
                        some { p with rl := { line := valIn, cursor := valIn.length } } },
          ret := (),
          events := [Event.parentPromptCall, Event.clean, Event.render,
                     Event.write valIn] }
  else
    { state := s, ret := (), events := [] }

/-- `ui.refresh()` (ui.js:159-173).  Returns `false` (no-op) when detached,
when there is no active prompt or when not mid-prompt.  Otherwise it cleans
the line, clears the mid-prompt flag, marks the prompt answered and fires
`done()` only if it was not already answered, leaves cancel mode and asks the
attached shell for a new prompt (`parentPromptCall`), returning `this`
(rendered here as `true`). -/
def refresh (s : UIState) : UIRet Bool :=
  if s.parent.isSome then
    match s.activePrompt with
    | none => { state := s, ret := false, events := [] }
    | some p =>
      if s._midPrompt then
        { state := { s with
                      activePrompt := some { p with status := "answered" },
                      _midPrompt := false,
                      _cancelled := false },
          ret := true,
          events := [Event.clean]
            ++ (if p.status = "answered" then [] else [Event.promptDone])
            ++ [Event.parentPromptCall] }
      else
        { state := s, ret := false, events := [] }
  else
    { state := s, ret := false, events := [] }

/-- Modelled from the spec: `VantageUtil.fixArgsForApply` lives in
lib/util.js, which is not under src/ (ui.js only imports it).  It normalizes a
value into an argument array for `Function.apply`: an array passes through
unchanged, and any other value becomes a one-element array. -/
def fixArgsForApply : JSVal → List JSPrim
  | .arr xs => xs
  | .prim p => [p]

/-- The pipe stage of `ui.log` (ui.js:281-283): the installed transform
applied once to the argument list, or the list itself when no transform is
installed. -/
def pipeApply (s : UIState) (args : List JSPrim) : JSVal :=
  match s._pipeFn with
  | some f => f args
  | none => .arr args

/-- `ui.log(...)` (ui.js:279-300).  The argument list goes through the pipe
stage once; a result strictly equal to the empty string stops everything.
Otherwise the result is normalized and, when `midPrompt()` holds, the session
is paused, the arguments printed and the captured content resumed — unless
`pause` returned a non-string, in which case the diagnostic message is
printed instead of resuming.  When not mid-prompt the arguments are printed
directly. -/
def log (s : UIState) (argsIn : List JSPrim) : UIRet Unit :=
  let args := pipeApply s argsIn
  if args = .prim (.str "") then
    { state := s, ret := (), events := [] }
  else
    let args2 := fixArgsForApply args
    if midPrompt s then
      let pr := pause s
      match pr.ret with
      | .prim (.str d) =>
        let rr := resume pr.state d
        { state := rr.state, ret := (),
          events := pr.events ++ [Event.consoleLog args2] ++ rr.events }
      | _ =>
        { state := pr.state, ret := (),
          events := pr.events ++ [Event.consoleLog args2,
            Event.consoleMsg "Log got back false as data. This should not happen."] }
    else
      { state := s, ret := (), events := [Event.consoleLog args2] }

/-- `ui.detach(vantage)` (ui.js:310-315): clears `parent` exactly when the
argument is the currently attached instance. -/
def detach (s : UIState) (vantage : Option Nat) : UIState :=
  if vantage = s.parent then { s with parent := none } else s

/-- Modelled from the spec: the execution queue lives in lib/vantage.js,
which is not under src/ (only src/test/integration.js exercises it).  Per
spec sections 4.2 and 5, an execution request is a command action together
with its internal asynchronous delay; actions are identified here by the
request id and the delay counts event-loop ticks until the action fires its
completion sink. -/
structure Request where
  id : Nat
  delay : Nat
deriving DecidableEq, Repr

/-- Modelled from the spec: the scheduler state of the execution queue —
pending requests held in strict FIFO order, the single running action (with
the ticks remaining until its sink fires), and the ids whose completions
have been delivered, in delivery order. -/
structure QueueState where
  pending : List Request
  current : Option (Request × Nat)
  completed : List Nat
deriving DecidableEq, Repr

/-- Modelled from the spec: one event-loop step of the queue.  A running
action whose delay has elapsed fires its sink and its completion is
delivered; a still-running action just ticks down; the queue starts the next
pending request only when nothing is running — it never advances past a
request whose sink has not fired. -/
def qstep (q : QueueState) : QueueState :=
  match q.current with
  | some (r, 0) => { q with current := none, completed := q.completed ++ [r.id] }
  | some (r, n + 1) => { q with current := some (r, n) }
  | none =>
    match q.pending with
    | [] => q
    | r :: rs => { q with pending := rs, current := some (r, r.delay) }

/-- Run the queue scheduler for a given number of event-loop steps. -/
def qrun : Nat → QueueState → QueueState
  | 0, q => q
  | n + 1, q => qrun n (qstep q)

/-- Enough event-loop steps to drain a submission list completely: one step
to start each request, its delay in ticks, and one step to deliver its
completion. -/
def fuelFor : List Request → Nat
  | [] => 0
  | r :: rs => (r.delay + 2) + fuelFor rs

theorem qrun_add (m n : Nat) (q : QueueState) :
    qrun (m + n) q = qrun n (qrun m q) := by
  induction m generalizing q with
  | zero => simp [qrun]
  | succ k ih =>
    rw [Nat.succ_add]
    show qrun (k + n) (qstep q) = qrun n (qrun k (qstep q))
    exact ih (qstep q)

theorem qrun_ticks (d : Nat) (r : Request) (rs : List Request) (acc : List Nat) :
    qrun (d + 1) { pending := rs, current := some (r, d), completed := acc }
      = { pending := rs, current := none, completed := acc ++ [r.id] } := by
  induction d with
  | zero => rfl
  | succ k ih =>
    show qrun (k + 1)
        (qstep { pending := rs, current := some (r, k + 1), completed := acc }) = _
    simpa [qstep] using ih

theorem qrun_drain (rs : List Request) (acc : List Nat) :
    qrun (fuelFor rs) { pending := rs, current := none, completed := acc }
      = { pending := [], current := none, completed := acc ++ rs.map Request.id } := by
  induction rs generalizing acc with
  | nil => simp [fuelFor, qrun]
  | cons r rs ih =>
    rw [fuelFor, qrun_add]
    have h1 : qrun (r.delay + 2) { pending := r :: rs, current := none, completed := acc }
        = { pending := rs, current := none, completed := acc ++ [r.id] } := by
      show qrun (r.delay + 1)
          (qstep { pending := r :: rs, current := none, completed := acc }) = _
      simpa [qstep] using qrun_ticks r.delay r rs acc
    rw [h1, ih]
    simp

/-- Modelled from the spec: the command registry lives in lib/vantage.js and
lib/command.js, which are not under src/ (only src/test/integration.js
exercises it).  A command owns a normalized name, a help description, an
action handler (identified here by a number) and its alias strings (spec
section 3). -/
structure Command where
  name : String
  description : String
  action : Nat
  aliases : List String
deriving DecidableEq, Repr

/-- Modelled from the spec: `vantage.command(name, description).action(fn)` —
re-registering a name already present replaces the prior command's action and
description in place, preserving its position in the registry; a new name is
appended (spec sections 3 and 4.1). -/
def register (reg : List Command) (n desc : String) (act : Nat) : List Command :=
  if reg.any (fun c => c.name == n) then
    reg.map (fun c =>
      if c.name == n then { c with description := desc, action := act } else c)
  else
    reg ++ [{ name := n, description := desc, action := act, aliases := [] }]

/-- Modelled from the spec: `alias(...)` attaches an additional resolvable
name to the command registered under `n` (spec section 4.1). -/
def addAlias (reg : List Command) (n a : String) : List Command :=
  reg.map (fun c =>
    if c.name == n then { c with aliases := c.aliases ++ [a] } else c)

/-- Modelled from the spec: resolution finds the registered command whose
name or alias matches the input and yields its current action (spec
sections 3 and 4.1). -/
def resolve (reg : List Command) (input : String) : Option Nat :=
  (reg.find? (fun c => c.name == input || c.aliases.contains input)).map Command.action

/-- Modelled from the spec: registering the same name repeatedly, each
registration carrying a description and an action. -/
def registerMany (reg : List Command) (n : String) (specs : List (String × Nat)) :
    List Command :=
  specs.foldl (fun r sp => register r n sp.1 sp.2) reg

/-- The in-place replacements a sequence of re-registrations performs on the
one command bound to the re-registered name. -/
def applySpecs (c : Command) (specs : List (String × Nat)) : Command :=
  specs.foldl (fun c sp => { c with description := sp.1, action := sp.2 }) c

theorem map_untouched (reg : List Command) (n : String)
    (f : Command → Command)
    (hreg : ∀ c' ∈ reg, (c'.name == n) = false) :
    List.map (fun c => if (c.name == n) = true then f c else c) reg = reg := by
  conv_rhs => rw [← List.map_id reg]
  apply List.map_congr_left
  intro c' hc'
  rw [hreg c' hc']
  simp

theorem register_absent (reg : List Command) (n desc : String) (act : Nat)
    (h : ∀ c ∈ reg, (c.name == n) = false) :
    register reg n desc act
      = reg ++ [{ name := n, description := desc, action := act, aliases := [] }] := by
  unfold register
  have hany : reg.any (fun c => c.name == n) = false := by
    simp only [List.any_eq_false, Bool.not_eq_true]
    exact h
  rw [hany]
  simp

theorem register_inplace (reg : List Command) (c : Command) (n desc : String) (act : Nat)
    (hreg : ∀ c' ∈ reg, (c'.name == n) = false) (hc : c.name = n) :
    register (reg ++ [c]) n desc act
      = reg ++ [{ c with description := desc, action := act }] := by
  unfold register
  have hany : (reg ++ [c]).any (fun c' => c'.name == n) = true := by
    simp [hc]
  rw [hany]
  simp only [if_true]
  rw [List.map_append, map_untouched reg n _ hreg]
  simp [hc]

theorem addAlias_inplace (reg : List Command) (c : Command) (n a : String)
    (hreg : ∀ c' ∈ reg, (c'.name == n) = false) (hc : c.name = n) :
    addAlias (reg ++ [c]) n a = reg ++ [{ c with aliases := c.aliases ++ [a] }] := by
  unfold addAlias
  rw [List.map_append, map_untouched reg n _ hreg]
  simp [hc]

theorem registerMany_inplace (reg : List Command) (n : String)
    (specs : List (String × Nat))
    (hreg : ∀ c' ∈ reg, (c'.name == n) = false) :
    ∀ c : Command, c.name = n →
      registerMany (reg ++ [c]) n specs = reg ++ [applySpecs c specs] := by
  induction specs with
  | nil => intro c _; rfl
  | cons sp specs ih =>
    intro c hc
    show registerMany (register (reg ++ [c]) n sp.1 sp.2) n specs
      = reg ++ [applySpecs c (sp :: specs)]
    rw [register_inplace reg c n sp.1 sp.2 hreg hc]
    exact ih { c with description := sp.1, action := sp.2 } hc

theorem applySpecs_getLastD (specs : List (String × Nat)) :
    ∀ c : Command,
      applySpecs c specs
        = { name := c.name,
            description := (specs.getLastD (c.description, c.action)).1,
            action := (specs.getLastD (c.description, c.action)).2,
            aliases := c.aliases } := by
  induction specs with
  | nil => intro c; rfl
  | cons sp specs ih =>
    intro c
    show applySpecs { c with description := sp.1, action := sp.2 } specs = _
    rw [ih { c with description := sp.1, action := sp.2 }]
    simp [List.getLastD_cons, List.getLast?_cons, List.getLastD_eq_getLast?]

theorem find?_append_left_none {α : Type} (p : α → Bool) (l₁ l₂ : List α)
    (h : ∀ x ∈ l₁, p x = false) :
    List.find? p (l₁ ++ l₂) = List.find? p l₂ := by
  induction l₁ with
  | nil => rfl
  | cons a l₁ ih =>
    show List.find? p (a :: (l₁ ++ l₂)) = _
    rw [List.find?_cons, h a (by simp)]
    exact ih (fun x hx => h x (by simp [hx]))

example :
    (pause ⟨some 0, some ⟨⟨"abc", 2⟩, "pending"⟩, true, false, none, none⟩).ret
      = JSVal.prim (JSPrim.str "abc") := by decide

example :
    (log ⟨some 0, some ⟨⟨"hi", 1⟩, "pending"⟩, true, false, none, none⟩
        [JSPrim.str "out"]).events
      = [Event.clean, Event.promptDone, Event.consoleLog [JSPrim.str "out"],
         Event.parentPromptCall, Event.clean, Event.render, Event.write "hi"] := by
  decide

example :
    (prompt ⟨some 0, none, true, false, none, none⟩ ⟨some "new>", none⟩).state._lastDelimiter
      = some "new> " := by rfl

/-- An attached, mid-prompt example session: owner 0, live line "hi" with
the cursor mid-line, no pipe transform. -/
def exMid : UIState := ⟨some 0, some ⟨⟨"hi", 1⟩, "pending"⟩, true, false, none, none⟩

/-- A detached example session whose internal mid-prompt flag is still set. -/
def exDetached : UIState := ⟨none, none, true, false, none, none⟩

/-- An attached, mid-prompt example session whose live line is still empty. -/
def exEmptyLine : UIState := ⟨some 0, some ⟨⟨"", 0⟩, "pending"⟩, true, false, none, none⟩

/-- An example session attached to owner 5 with every other field populated. -/
def exAttached5 : UIState := ⟨some 5, some ⟨⟨"x", 1⟩, "pending"⟩, true, true, none, some "v "⟩

/-- An example pipe transform that prefixes the argument list. -/
def exPipe : List JSPrim → JSVal := fun args => JSVal.arr (JSPrim.str "piped" :: args)

/-- A detached example session with `exPipe` installed. -/
def exPiped : UIState := ⟨none, none, false, false, some exPipe, none⟩

/-- An example registry holding one unrelated command. -/
def exReg : List Command :=
  [{ name := "other", description := "o", action := 7, aliases := ["x"] }]

theorem midPrompt_iff (s : UIState) :
    midPrompt s = true ↔ (s._midPrompt = true ∧ s.parent.isSome = true) := by
  unfold midPrompt
  cases h1 : s._midPrompt <;> cases h2 : s.parent.isSome <;> simp [h1, h2]

theorem setDelimiter_parent (s : UIState) (str : String) :
    (setDelimiter s str).parent = s.parent := by
  unfold setDelimiter; split <;> rfl

theorem setDelimiter_midPrompt (s : UIState) (str : String) :
    (setDelimiter s str)._midPrompt = s._midPrompt := by
  unfold setDelimiter; split <;> rfl

theorem setDelimiter_activePrompt (s : UIState) (str : String) :
    (setDelimiter s str).activePrompt = s.activePrompt := by
  unfold setDelimiter; split <;> rfl

theorem setDelimiter_pipeFn (s : UIState) (str : String) :
    (setDelimiter s str)._pipeFn = s._pipeFn := by
  unfold setDelimiter; split <;> rfl

theorem setDelimiter_cancelled (s : UIState) (str : String) :
    (setDelimiter s str)._cancelled = s._cancelled := by
  unfold setDelimiter; split <;> rfl

theorem promptDelims_parent (s : UIState) (o : PromptOptions) :
    (promptDelims s o).parent = s.parent := by
  unfold promptDelims
  split <;> split <;> simp [setDelimiter_parent]

theorem promptDelims_midPrompt (s : UIState) (o : PromptOptions) :
    (promptDelims s o)._midPrompt = s._midPrompt := by
  unfold promptDelims
  split <;> split <;> simp [setDelimiter_midPrompt]

theorem promptDelims_activePrompt (s : UIState) (o : PromptOptions) :
    (promptDelims s o).activePrompt = s.activePrompt := by
  unfold promptDelims
  split <;> split <;> simp [setDelimiter_activePrompt]

theorem promptDelims_pipeFn (s : UIState) (o : PromptOptions) :
    (promptDelims s o)._pipeFn = s._pipeFn := by
  unfold promptDelims
  split <;> split <;> simp [setDelimiter_pipeFn]

theorem promptDelims_cancelled (s : UIState) (o : PromptOptions) :
    (promptDelims s o)._cancelled = s._cancelled := by
  unfold promptDelims
  split <;> split <;> simp [setDelimiter_cancelled]

theorem pause_events_shape (s : UIState) :
    (pause s).events = [] ∨ (pause s).events = [Event.clean, Event.promptDone] := by
  unfold pause
  cases h1 : s.parent.isSome with
  | false => simp [h1]
  | true =>
    cases h2 : s.activePrompt with
    | none => simp [h1, h2]
    | some p =>
      cases h3 : s._midPrompt with
      | false => simp [h1, h2, h3]
      | true => simp [h1, h2, h3]

theorem resume_events_shape (s : UIState) (v : String) :
    (resume s v).events = [] ∨
    (resume s v).events
      = [Event.parentPromptCall, Event.clean, Event.render, Event.write v] := by
  unfold resume
  cases h1 : s.parent.isSome with
  | false => simp [h1]
  | true =>
    cases h2 : s.activePrompt with
    | none => simp [h1, h2]
    | some p =>
      cases h3 : s._midPrompt with
      | false => simp [h1, h2, h3]
      | true => simp [h1, h2, h3]

/-- C9: calling `prompt(options, cb)` while no shell is attached returns
immediately without throwing (`returned`, not `threw`), with the state —
in particular the mid-prompt flag — unchanged, and with no events: since
`inquirer.prompt` is never invoked (no `inquirerPromptCall`), the completion
callback `cb` can never fire. -/
theorem C9_prompt_detached_noop (s : UIState) (options : PromptOptions)
    (h : s.parent = none) :
    prompt s options = { state := s, ret := PromptOutcome.returned, events := [] } := by
  unfold prompt
  rw [h]
  rfl

theorem C9_prompt_detached_noop_witness :
    exDetached.parent = none ∧
    prompt exDetached ⟨some "d>", none⟩
      = { state := exDetached, ret := PromptOutcome.returned, events := [] } :=
  ⟨rfl, C9_prompt_detached_noop exDetached ⟨some "d>", none⟩ rfl⟩

/-- C10: `midPrompt()` reports true exactly when both the internal mid-prompt
flag is set and a shell is attached; in every detached state it reports
false even when the internal flag is still set. -/
theorem C10_midPrompt_requires_attachment (s : UIState) :
    (midPrompt s = true ↔ (s._midPrompt = true ∧ s.parent.isSome = true)) ∧
    (s.parent = none → midPrompt s = false) := by
  refine ⟨midPrompt_iff s, fun h => ?_⟩
  unfold midPrompt
  rw [h]
  simp

theorem C10_midPrompt_requires_attachment_witness :
    exDetached.parent = none ∧ exDetached._midPrompt = true ∧
    midPrompt exDetached = false :=
  ⟨rfl, rfl, (C10_midPrompt_requires_attachment exDetached).2 rfl⟩

/-- C2: while a shell is attached, an active prompt exists and the session
is mid-prompt, `pause()` returns exactly the typed content of the live line
as a string (possibly empty, never the discarded `false` value) and clears
the mid-prompt flag. -/
theorem C2_pause_returns_typed_content (s : UIState) (p : Prompt)
    (hpar : s.parent.isSome = true) (hap : s.activePrompt = some p)
    (hmid : s._midPrompt = true) :
    (pause s).ret = JSVal.prim (JSPrim.str p.rl.line) ∧
    (pause s).state._midPrompt = false := by
  unfold pause
  rw [hpar, hap, hmid]
  exact ⟨rfl, rfl⟩

theorem C2_pause_returns_typed_content_witness :
    exEmptyLine.parent.isSome = true ∧
    exEmptyLine.activePrompt = some ⟨⟨"", 0⟩, "pending"⟩ ∧
    exEmptyLine._midPrompt = true ∧
    (pause exEmptyLine).ret = JSVal.prim (JSPrim.str "") ∧
    (pause exEmptyLine).state._midPrompt = false :=
  ⟨rfl, rfl, rfl,
   (C2_pause_returns_typed_content exEmptyLine ⟨⟨"", 0⟩, "pending"⟩ rfl rfl rfl).1,
   (C2_pause_returns_typed_content exEmptyLine ⟨⟨"", 0⟩, "pending"⟩ rfl rfl rfl).2⟩

/-- C6: `detach(owner)` clears the owning reference exactly when the
argument is the currently attached owner, is otherwise a no-op, and in every
case leaves the mid-prompt flag, the active prompt reference, the cancel
flag, the pipe transform and the delimiter unchanged. -/
theorem C6_detach_only_matching_owner (s : UIState) (v : Option Nat) :
    ((detach s v)._midPrompt = s._midPrompt ∧
     (detach s v).activePrompt = s.activePrompt ∧
     (detach s v)._cancelled = s._cancelled ∧
     (detach s v)._pipeFn = s._pipeFn ∧
     (detach s v)._lastDelimiter = s._lastDelimiter) ∧
    (v = s.parent → (detach s v).parent = none) ∧
    (v ≠ s.parent → (detach s v).parent = s.parent) := by
  unfold detach
  by_cases h : v = s.parent <;> simp [h]

theorem C6_detach_only_matching_owner_witness :
    (detach exAttached5 (some 5)).parent = none ∧
    (detach exAttached5 (some 5))._midPrompt = true ∧
    (detach exAttached5 (some 6)).parent = some 5 :=
  ⟨(C6_detach_only_matching_owner exAttached5 (some 5)).2.1 rfl,
   by simpa [exAttached5] using (C6_detach_only_matching_owner exAttached5 (some 5)).1.1,
   ((C6_detach_only_matching_owner exAttached5 (some 6)).2.2 (by decide)).trans rfl⟩

/-- C5: `refresh()` is a strict no-op returning false whenever no shell is
attached, no active prompt exists, or the session is not mid-prompt;
otherwise it returns successfully, cleans the live line, leaves it marked
answered (firing `done()` exactly once — and not at all if it was already
answered), clears the mid-prompt flag, and immediately asks the attached
shell to start a new prompt. -/
theorem C5_refresh_behavior (s : UIState) (p : Prompt) :
    (¬(s.parent.isSome = true ∧ s.activePrompt.isSome = true ∧ s._midPrompt = true) →
      refresh s = { state := s, ret := false, events := [] }) ∧
    (s.parent.isSome = true → s.activePrompt = some p → s._midPrompt = true →
      (refresh s).ret = true ∧
      (refresh s).state._midPrompt = false ∧
      (refresh s).state.activePrompt = some { p with status := "answered" } ∧
      (refresh s).events
        = [Event.clean]
          ++ (if p.status = "answered" then [] else [Event.promptDone])
          ++ [Event.parentPromptCall] ∧
      (refresh s).events.count Event.promptDone
        = (if p.status = "answered" then 0 else 1)) := by
  constructor
  · intro h
    unfold refresh
    cases h1 : s.parent.isSome with
    | false => simp [h1]
    | true =>
      cases h2 : s.activePrompt with
      | none => simp [h1, h2]
      | some q =>
        cases h3 : s._midPrompt with
        | false => simp [h1, h2, h3]
        | true => exact absurd ⟨h1, by simp [h2], h3⟩ h
  · intro h1 h2 h3
    have hr : refresh s
        = { state := { s with
                        activePrompt := some { p with status := "answered" },
                        _midPrompt := false,
                        _cancelled := false },
            ret := true,
            events := [Event.clean]
              ++ (if p.status = "answered" then [] else [Event.promptDone])
              ++ [Event.parentPromptCall] } := by
      unfold refresh
      rw [h1, h2, h3]
      rfl
    rw [hr]
    refine ⟨rfl, rfl, rfl, rfl, ?_⟩
    by_cases hst : p.status = "answered"
    · rw [if_pos hst, if_pos hst]
      show List.count Event.promptDone ([Event.clean] ++ [] ++ [Event.parentPromptCall]) = 0
      decide
    · rw [if_neg hst, if_neg hst]
      show List.count Event.promptDone
          ([Event.clean] ++ [Event.promptDone] ++ [Event.parentPromptCall]) = 1
      decide

theorem C5_refresh_behavior_witness :
    exMid.parent.isSome = true ∧
    exMid.activePrompt = some ⟨⟨"hi", 1⟩, "pending"⟩ ∧
    exMid._midPrompt = true ∧
    (refresh exMid).ret = true ∧
    (refresh exMid).state._midPrompt = false ∧
    (refresh exMid).events = [Event.clean, Event.promptDone, Event.parentPromptCall] := by
  have h := (C5_refresh_behavior exMid ⟨⟨"hi", 1⟩, "pending"⟩).2 rfl rfl rfl
  exact ⟨rfl, rfl, rfl, h.1, h.2.1, h.2.2.2.1.trans (by decide)⟩

/-- C1 as stated is violated: with an owner attached, the mid-prompt flag
set and `options.delimiter` present, `prompt` does throw the reentrancy
error, but the session's stored delimiter has changed from `none` to
`some "new> "` — `setDelimiter` runs before the mid-prompt check. -/
theorem C1_delimiter_changed_counterexample :
    (prompt ⟨some 0, none, true, false, none, none⟩ ⟨some "new>", none⟩).ret
        = PromptOutcome.threw ∧
    (⟨some 0, none, true, false, none, none⟩ : UIState)._lastDelimiter = none ∧
    (prompt ⟨some 0, none, true, false, none, none⟩ ⟨some "new>", none⟩).state._lastDelimiter
        = some "new> " :=
  ⟨rfl, rfl, rfl⟩

/-- C1 (amended): calling `prompt(options, cb)` while already mid-prompt
throws the reentrancy error to the caller and refuses to start or queue a
new line (no `inquirerPromptCall` is emitted), leaving the attached owner,
the mid-prompt flag, the active prompt reference, the cancel flag and the
pipe transform unchanged; the delimiter, however, may already have been
updated from `options.delimiter` / `options.message` before the check
fires. -/
theorem C1_prompt_reentrancy_refused (s : UIState) (options : PromptOptions)
    (hpar : s.parent.isSome = true) (hmid : s._midPrompt = true) :
    (prompt s options).ret = PromptOutcome.threw ∧
    (prompt s options).state.parent = s.parent ∧
    (prompt s options).state._midPrompt = true ∧
    (prompt s options).state.activePrompt = s.activePrompt ∧
    (prompt s options).state._pipeFn = s._pipeFn ∧
    (prompt s options).state._cancelled = s._cancelled ∧
    Event.inquirerPromptCall ∉ (prompt s options).events := by
  have hm2 : (promptDelims s options)._midPrompt = true :=
    (promptDelims_midPrompt s options).trans hmid
  have hp : prompt s options
      = { state := promptDelims s options, ret := .threw,
          events := [Event.consoleMsg "Prompt called when mid prompt..."] } := by
    unfold prompt
    rw [hpar, hm2]
    rfl
  rw [hp]
  exact ⟨rfl, promptDelims_parent s options, hm2, promptDelims_activePrompt s options,
    promptDelims_pipeFn s options, promptDelims_cancelled s options, by simp⟩

theorem C1_prompt_reentrancy_refused_witness :
    exMid.parent.isSome = true ∧ exMid._midPrompt = true ∧
    (prompt exMid ⟨some "new>", none⟩).ret = PromptOutcome.threw ∧
    (prompt exMid ⟨some "new>", none⟩).state._midPrompt = true ∧
    (prompt exMid ⟨some "new>", none⟩).state.activePrompt = exMid.activePrompt ∧
    Event.inquirerPromptCall ∉ (prompt exMid ⟨some "new>", none⟩).events := by
  have h := C1_prompt_reentrancy_refused exMid ⟨some "new>", none⟩ rfl rfl
  exact ⟨rfl, rfl, h.1, h.2.2.1, h.2.2.2.1, h.2.2.2.2.2.2⟩

/-- C3 as stated is violated: while Prompting (attached, active prompt,
mid-prompt set) with a pipe transform that returns the empty string, `log`
performs no pause, print or resume at all — the event trace is empty and
the live line keeps its mid-line cursor (1, not the content length 2), so
nothing is captured, hidden, printed or restored. -/
theorem C3_suppressed_log_counterexample :
    midPrompt ⟨some 0, some ⟨⟨"ab", 1⟩, "pending"⟩, true, false,
        some (fun _ => JSVal.prim (JSPrim.str "")), none⟩ = true ∧
    (log ⟨some 0, some ⟨⟨"ab", 1⟩, "pending"⟩, true, false,
        some (fun _ => JSVal.prim (JSPrim.str "")), none⟩ [JSPrim.str "x"]).events = [] ∧
    (log ⟨some 0, some ⟨⟨"ab", 1⟩, "pending"⟩, true, false,
        some (fun _ => JSVal.prim (JSPrim.str "")), none⟩ [JSPrim.str "x"]).state.activePrompt
      = some ⟨⟨"ab", 1⟩, "pending"⟩ :=
  ⟨rfl, rfl, rfl⟩

/-- C3 (amended): while Prompting (mid-prompt with an attached shell and an
active prompt), a `log(...)` call whose pipe result is not the empty string
captures the typed content, cleans (hides) the line, prints the transformed
arguments, asks the shell for a new prompt and restores the line with the
captured content and the cursor at its end; when the pipe result is the
empty string the call does nothing.  While not Prompting, the (transformed)
arguments are printed directly with no pause/resume transition. -/
theorem C3_log_pause_print_resume (s : UIState) (p : Prompt) (argsIn : List JSPrim)
    (hns : pipeApply s argsIn ≠ JSVal.prim (JSPrim.str "")) :
    (midPrompt s = true → s.activePrompt = some p →
      (log s argsIn).events
        = [Event.clean, Event.promptDone,
           Event.consoleLog (fixArgsForApply (pipeApply s argsIn)),
           Event.parentPromptCall, Event.clean, Event.render,
           Event.write p.rl.line] ∧
      (log s argsIn).state.activePrompt
        = some { rl := { line := p.rl.line, cursor := p.rl.line.length },
                 status := "answered" }) ∧
    (midPrompt s = false →
      (log s argsIn).events
        = [Event.consoleLog (fixArgsForApply (pipeApply s argsIn))] ∧
      (log s argsIn).state = s) := by
  constructor
  · intro hmp hap
    obtain ⟨hm, hp⟩ := (midPrompt_iff s).mp hmp
    have hpause : pause s
        = { state := { s with
                        _midPrompt := false,
                        _cancelled := true,
                        activePrompt := some { p with status := "answered" } },
            ret := .prim (.str p.rl.line),
            events := [Event.clean, Event.promptDone] } := by
      unfold pause
      rw [hp, hap, hm]
      rfl
    constructor <;>
      simp [log, hns, hmp, hpause, resume, hp, hap]
  · intro hmp
    constructor <;> simp [log, hns, hmp]

theorem C3_log_pause_print_resume_witness :
    pipeApply exMid [JSPrim.str "out"] ≠ JSVal.prim (JSPrim.str "") ∧
    midPrompt exMid = true ∧
    exMid.activePrompt = some ⟨⟨"hi", 1⟩, "pending"⟩ ∧
    (log exMid [JSPrim.str "out"]).events
      = [Event.clean, Event.promptDone, Event.consoleLog [JSPrim.str "out"],
         Event.parentPromptCall, Event.clean, Event.render, Event.write "hi"] ∧
    (log exMid [JSPrim.str "out"]).state.activePrompt
      = some ⟨⟨"hi", 2⟩, "answered"⟩ := by
  have h := (C3_log_pause_print_resume exMid ⟨⟨"hi", 1⟩, "pending"⟩ [JSPrim.str "out"]
      (by decide)).1 rfl rfl
  exact ⟨by decide, rfl, rfl, h.1, h.2⟩

/-- Whenever the pipe stage does not return the empty string, the event trace
of `log` contains exactly one `consoleLog` entry, and its argument list is
the normalized pipe result. -/
theorem log_single_consoleLog (s : UIState) (argsIn : List JSPrim)
    (h : pipeApply s argsIn ≠ JSVal.prim (JSPrim.str "")) :
    ∃ pre post : List Event,
      (log s argsIn).events
        = pre ++ [Event.consoleLog (fixArgsForApply (pipeApply s argsIn))] ++ post ∧
      (∀ a, Event.consoleLog a ∉ pre) ∧ (∀ a, Event.consoleLog a ∉ post) := by
  unfold log
  rw [if_neg h]
  by_cases hmp : midPrompt s = true
  · rw [hmp]
    simp only [if_true]
    rcases hr : (pause s).ret with pp | xs
    · rcases pp with d | b | nn | _ | _
      · refine ⟨(pause s).events, (resume (pause s).state d).events, rfl, ?_, ?_⟩
        · intro a ha
          rcases pause_events_shape s with he | he <;> rw [he] at ha <;> simp at ha
        · intro a ha
          rcases resume_events_shape (pause s).state d with he | he <;>
            rw [he] at ha <;> simp at ha
      all_goals
        refine ⟨(pause s).events,
          [Event.consoleMsg "Log got back false as data. This should not happen."],
          by simp, ?_, by intro a ha; simp at ha⟩
      all_goals
        intro a ha
        rcases pause_events_shape s with he | he <;> rw [he] at ha <;> simp at ha
    · refine ⟨(pause s).events,
        [Event.consoleMsg "Log got back false as data. This should not happen."],
        by simp, ?_, by intro a ha; simp at ha⟩
      intro a ha
      rcases pause_events_shape s with he | he <;> rw [he] at ha <;> simp at ha
  · rw [Bool.not_eq_true] at hmp
    rw [hmp]
    exact ⟨[], [], rfl, by intro a ha; simp at ha, by intro a ha; simp at ha⟩

/-- C4 as stated is violated: a pipe transform returning the falsy value
`false` does not suppress output — `log` still emits a console line carrying
`false` — because ui.js compares the transform result against the empty
string only (`args === ""`). -/
theorem C4_falsy_pipe_counterexample :
    JSVal.falsy (pipeApply ⟨none, none, false, false,
        some (fun _ => JSVal.prim (JSPrim.bool false)), none⟩ [JSPrim.str "hello"]) = true ∧
    (log ⟨none, none, false, false,
        some (fun _ => JSVal.prim (JSPrim.bool false)), none⟩ [JSPrim.str "hello"]).events
      = [Event.consoleLog [JSPrim.bool false]] :=
  ⟨rfl, rfl⟩

/-- C4 (amended): with an installed pipe transform, `log` emits no output at
all exactly when the transform returns the (strictly compared) empty string;
for every other return value — falsy or not — the once-transformed value is
normalized and emitted in place of the original arguments, and the transform
is applied to the call exactly once: every `consoleLog` the call emits
carries the normalization of the single transform result. -/
theorem C4_pipe_transform_once (s : UIState) (f : List JSPrim → JSVal)
    (argsIn : List JSPrim) (hf : s._pipeFn = some f) :
    (f argsIn = JSVal.prim (JSPrim.str "") →
      (log s argsIn).events = [] ∧ (log s argsIn).state = s) ∧
    (f argsIn ≠ JSVal.prim (JSPrim.str "") →
      Event.consoleLog (fixArgsForApply (f argsIn)) ∈ (log s argsIn).events ∧
      ∀ a, Event.consoleLog a ∈ (log s argsIn).events →
        a = fixArgsForApply (f argsIn)) := by
  have hpa : pipeApply s argsIn = f argsIn := by
    unfold pipeApply
    rw [hf]
  constructor
  · intro h
    have : pipeApply s argsIn = JSVal.prim (JSPrim.str "") := hpa.trans h
    unfold log
    rw [if_pos this]
    exact ⟨rfl, rfl⟩
  · intro h
    have hne : pipeApply s argsIn ≠ JSVal.prim (JSPrim.str "") := by
      rw [hpa]; exact h
    obtain ⟨pre, post, hev, hpre, hpost⟩ := log_single_consoleLog s argsIn hne
    rw [hpa] at hev
    constructor
    · rw [hev]
      simp
    · intro a ha
      rw [hev] at ha
      simp only [List.append_assoc, List.mem_append, List.mem_singleton] at ha
      rcases ha with h1 | h2 | h3
      · exact absurd h1 (hpre a)
      · exact (Event.consoleLog.injEq a (fixArgsForApply (f argsIn))).mp h2
      · exact absurd h3 (hpost a)

theorem C4_pipe_transform_once_witness :
    exPiped._pipeFn = some exPipe ∧
    exPipe [JSPrim.str "x"] ≠ JSVal.prim (JSPrim.str "") ∧
    Event.consoleLog (fixArgsForApply (exPipe [JSPrim.str "x"]))
      ∈ (log exPiped [JSPrim.str "x"]).events := by
  have h := (C4_pipe_transform_once exPiped exPipe [JSPrim.str "x"] rfl).2 (by decide)
  exact ⟨rfl, by decide, h.1⟩

/-- C7: for every submission list, running the serialized execution queue to
completion delivers the completions exactly in submission (FIFO) order,
whatever each action's internal asynchronous delay, and fully drains the
queue — it never reorders or parallelizes actions. -/
theorem C7_queue_fifo_order (rs : List Request) :
    (qrun (fuelFor rs) { pending := rs, current := none, completed := [] }).completed
      = rs.map Request.id ∧
    (qrun (fuelFor rs) { pending := rs, current := none, completed := [] }).pending = [] ∧
    (qrun (fuelFor rs) { pending := rs, current := none, completed := [] }).current
      = none := by
  rw [qrun_drain]
  simp

/-- C8: starting from a registry in which the name `n` is absent and nothing
resolves the alias `al` or the input `n`, registering `n`, attaching the
alias and re-registering any number of further times leaves exactly one live
command bound to `n` — carrying the description and action of the last
registration — at the position the first registration gave it, and both `n`
and the alias resolve to that last action. -/
theorem C8_reregistration_last_wins (reg : List Command) (n d0 al : String) (a0 : Nat)
    (rest : List (String × Nat))
    (hn : ∀ c ∈ reg, (c.name == n) = false)
    (hal : ∀ c ∈ reg, (c.name == al || c.aliases.contains al) = false)
    (hnr : ∀ c ∈ reg, (c.aliases.contains n) = false) :
    ((registerMany (addAlias (register reg n d0 a0) n al) n rest).countP
        (fun c => c.name == n) = 1) ∧
    (registerMany (addAlias (register reg n d0 a0) n al) n rest).length
      = reg.length + 1 ∧
    (registerMany (addAlias (register reg n d0 a0) n al) n rest)[reg.length]?
      = some { name := n, description := (rest.getLastD (d0, a0)).1,
               action := (rest.getLastD (d0, a0)).2, aliases := [al] } ∧
    resolve (registerMany (addAlias (register reg n d0 a0) n al) n rest) al
      = some (rest.getLastD (d0, a0)).2 ∧
    resolve (registerMany (addAlias (register reg n d0 a0) n al) n rest) n
      = some (rest.getLastD (d0, a0)).2 := by
  have h1 : register reg n d0 a0
      = reg ++ [{ name := n, description := d0, action := a0, aliases := [] }] :=
    register_absent reg n d0 a0 hn
  have h2 : addAlias (register reg n d0 a0) n al
      = reg ++ [{ name := n, description := d0, action := a0, aliases := [al] }] := by
    rw [h1, addAlias_inplace reg _ n al hn rfl]
    rfl
  have h3 : registerMany (addAlias (register reg n d0 a0) n al) n rest
      = reg ++ [{ name := n, description := (rest.getLastD (d0, a0)).1,
                  action := (rest.getLastD (d0, a0)).2, aliases := [al] }] := by
    rw [h2, registerMany_inplace reg n rest hn _ rfl, applySpecs_getLastD]
  rw [h3]
  have hcount : reg.countP (fun c => c.name == n) = 0 := by
    rw [List.countP_eq_zero]
    intro c hc
    simp [hn c hc]
  refine ⟨?_, ?_, ?_, ?_, ?_⟩
  · rw [List.countP_append, hcount]
    simp
  · simp
  · rw [List.getElem?_append_right (Nat.le_refl reg.length)]
    simp
  · unfold resolve
    rw [find?_append_left_none _ reg _ hal]
    simp
  · unfold resolve
    rw [find?_append_left_none _ reg _ (fun c hc => by
      show (c.name == n || c.aliases.contains n) = false
      rw [hn c hc, hnr c hc]
      rfl)]
    simp

theorem C8_reregistration_last_wins_witness :
    (∀ c ∈ exReg, (c.name == "cmd") = false) ∧
    (∀ c ∈ exReg, (c.name == "short" || c.aliases.contains "short") = false) ∧
    (∀ c ∈ exReg, (c.aliases.contains "cmd") = false) ∧
    resolve (registerMany (addAlias (register exReg "cmd" "first" 1) "cmd" "short") "cmd"
        [("second", 2), ("third", 3)]) "short" = some 3 ∧
    (registerMany (addAlias (register exReg "cmd" "first" 1) "cmd" "short") "cmd"
        [("second", 2), ("third", 3)]).countP (fun c => c.name == "cmd") = 1 := by
  have h := C8_reregistration_last_wins exReg "cmd" "first" "short" 1
    [("second", 2), ("third", 3)] (by decide) (by decide) (by decide)
  exact ⟨by decide, by decide, by decide, h.2.2.2.1.trans (by decide), h.1⟩

end BiVantage
